import Mathlib

/-!
Shallow embedding of the `rate-limiter` crate (basic-axum-rate-limit).

Conventions of the embedding:
* Timestamps (`chrono::DateTime<Utc>`) are integers counting milliseconds;
  `chrono::Duration` values are integer millisecond counts.
  `Duration::num_seconds()` truncates toward zero, which is `Int.tdiv · 1000`.
* `f64` token balances are modelled as `ℚ` (exact real-valued arithmetic; the
  claims under study do not involve rounding of binary floating point).
* The concurrent `DashMap<String, RateLimitEntry>` is modelled as an
  association list `List (String × RateLimitEntry)`; operations on it are the
  sequential atomic per-key critical sections of the source.
* The source reads `Utc::now()` at the top of each operation; the embedding
  takes `now` as an explicit argument.
-/

/-- Embeds `RateLimitConfig` (src/config.rs).  `block_duration` is held in
milliseconds; `rate_limit_per_minute` is the `u32` field. -/
structure RateLimitConfig where
  rate_limit_per_minute : ℕ
  block_duration_ms : ℤ
  grace_period_seconds : ℕ
  cache_refund_share : ℚ
  error_penalty_tokens : ℚ
deriving DecidableEq

namespace RateLimitConfig

/-- `RateLimitConfig::max_tokens` (src/config.rs line 65): `rate_limit_per_minute as f64`. -/
def max_tokens (c : RateLimitConfig) : ℚ := c.rate_limit_per_minute

/-- `RateLimitConfig::refill_rate_per_second` (src/config.rs line 69):
`rate_limit_per_minute as f64 / 60.0`. -/
def refill_rate_per_second (c : RateLimitConfig) : ℚ :=
  (c.rate_limit_per_minute : ℚ) / 60

end RateLimitConfig

/-- Embeds `RateLimitEntry` (src/types.rs). -/
structure RateLimitEntry where
  tokens : ℚ
  last_refill : ℤ
  created_at : ℤ
  blocked_until : Option ℤ
deriving DecidableEq

/-- `RateLimitEntry::new` (src/types.rs lines 28-38), with the `Utc::now()`
it reads passed in as `now`. -/
def RateLimitEntry.new (initial_tokens : ℚ) (now : ℤ) : RateLimitEntry :=
  { tokens := initial_tokens
    last_refill := now
    created_at := now
    blocked_until := none }

/-- `chrono::Duration::num_seconds()` on a millisecond count: the total number
of whole seconds, truncated toward zero. -/
def durationNumSeconds (ms : ℤ) : ℤ := Int.tdiv ms 1000

/-- The rate-limit cache: `DashMap<String, RateLimitEntry>` as an association list. -/
abbrev Cache := List (String × RateLimitEntry)

/-- Read the entry stored under `key` (`DashMap::get`). -/
def lookupEntry (cache : Cache) (key : String) : Option RateLimitEntry :=
  (cache.find? (fun p => p.1 == key)).map (·.2)

/-- Overwrite the entry stored under `key` (write-back of a mutated `RefMut`). -/
def updateEntry (cache : Cache) (key : String) (e : RateLimitEntry) : Cache :=
  cache.map (fun p => if p.1 == key then (p.1, e) else p)

/-- The refill assignment of `check_rate_limit` (src/limiter.rs lines 61-66):
`elapsed = (now - last_refill).num_seconds().max(0) as f64`;
`tokens = (tokens + elapsed * refill_rate).min(max_tokens)`. -/
def refillTokens (c : RateLimitConfig) (now : ℤ) (e : RateLimitEntry) : ℚ :=
  min (e.tokens + ((max (durationNumSeconds (now - e.last_refill)) 0 : ℤ) : ℚ)
        * c.refill_rate_per_second)
    c.max_tokens

/-- `RateLimiter::check_rate_limit` (src/limiter.rs lines 34-101).
Returns the `(allowed, newly_blocked, remaining_tokens)` triple and the cache
after the call.  The `tokio::spawn` of the `on_blocked` observer is external
fire-and-forget and does not touch the cache. -/
def check_rate_limit (c : RateLimitConfig) (now : ℤ) (key : String) (cache : Cache) :
    (Bool × Bool × ℚ) × Cache :=
  let fastBlocked :=
    match lookupEntry cache key with
    | some entry =>
      match entry.blocked_until with
      | some blocked_until => decide (now < blocked_until)
      | none => false
    | none => false
  if fastBlocked then ((false, false, 0), cache)
  else
    let max_tokens := c.max_tokens
    let (entry, cache1) :=
      match lookupEntry cache key with
      | some e => (e, cache)
      | none => (RateLimitEntry.new max_tokens now,
                 cache ++ [(key, RateLimitEntry.new max_tokens now)])
    let entry_age := durationNumSeconds (now - entry.created_at)
    if entry_age < (c.grace_period_seconds : ℤ) then
      ((true, false, max_tokens), updateEntry cache1 key entry)
    else
      let entry1 : RateLimitEntry :=
        { entry with tokens := refillTokens c now entry, last_refill := now }
      if 1 ≤ entry1.tokens then
        let entry2 := { entry1 with tokens := entry1.tokens - 1 }
        ((true, false, entry2.tokens), updateEntry cache1 key entry2)
      else
        match entry1.blocked_until with
        | none =>
          let entry2 := { entry1 with blocked_until := some (now + c.block_duration_ms) }
          ((false, true, 0), updateEntry cache1 key entry2)
        | some _ => ((false, false, 0), updateEntry cache1 key entry1)

/-- `RateLimiter::cleanup_cache` (src/limiter.rs lines 103-132):
retain an entry if its block is still active, or if
`now - last_refill < 2 * block_duration`. -/
def cleanup_cache (c : RateLimitConfig) (now : ℤ) (cache : Cache) : Cache :=
  let cache_retention := 2 * c.block_duration_ms
  cache.filter (fun p =>
    match p.2.blocked_until with
    | some blocked_until =>
      if now < blocked_until then true
      else decide (now - p.2.last_refill < cache_retention)
    | none => decide (now - p.2.last_refill < cache_retention))

/-- `RateLimiter::refund_tokens` (src/limiter.rs lines 134-146). -/
def refund_tokens (c : RateLimitConfig) (key : String) (amount : ℚ) (cache : Cache) : Cache :=
  match lookupEntry cache key with
  | none => cache
  | some e => updateEntry cache key { e with tokens := min (e.tokens + amount) c.max_tokens }

/-- `RateLimiter::consume_additional_tokens` (src/limiter.rs lines 148-159):
`entry.tokens -= amount` with no clamp. -/
def consume_additional_tokens (key : String) (amount : ℚ) (cache : Cache) : Cache :=
  match lookupEntry cache key with
  | none => cache
  | some e => updateEntry cache key { e with tokens := e.tokens - amount }

/-- `RateLimiter::block_immediately` (src/limiter.rs lines 167-180). -/
def block_immediately (c : RateLimitConfig) (key : String) (now : ℤ) (cache : Cache) : Cache :=
  let (entry, cache1) :=
    match lookupEntry cache key with
    | some e => (e, cache)
    | none => (RateLimitEntry.new c.max_tokens now,
               cache ++ [(key, RateLimitEntry.new c.max_tokens now)])
  updateEntry cache1 key
    { entry with tokens := 0, blocked_until := some (now + c.block_duration_ms) }

/-! ### Concrete scenario of claim C1:
`max_tokens = 10`, `period = 60 s` (so `rate_limit_per_minute = 10`),
`grace_period = 0`, `block_duration = 15 min = 900000 ms`, and twelve `check`
calls against a fresh key all at the same instant `now = 0`. -/

/-- The configuration of the C1 scenario. -/
def c1cfg : RateLimitConfig := ⟨10, 900000, 0, 1/2, 2⟩

/-- One `check_rate_limit` call of the C1 scenario (key "k", time 0). -/
def c1step (cache : Cache) : (Bool × Bool × ℚ) × Cache :=
  check_rate_limit c1cfg 0 "k" cache

/-- The cache after `n` calls of the C1 scenario, starting from an empty cache. -/
def c1cache : ℕ → Cache
  | 0 => []
  | n + 1 => (c1step (c1cache n)).2

/-- The `(allowed, newly_blocked, remaining)` triple returned by call number
`n + 1` of the C1 scenario. -/
def c1call (n : ℕ) : Bool × Bool × ℚ := (c1step (c1cache n)).1

/-- Modelled from the spec, for the refinement comparison of claim C4 only:
the refill formula with `elapsed` taken as the *continuous* real-valued
duration in seconds since `last_refill` (the spec's reading), rather than the
whole-second count the source computes. -/
def specContinuousRefillTokens (c : RateLimitConfig) (now : ℤ) (e : RateLimitEntry) : ℚ :=
  min (e.tokens + max (((now - e.last_refill : ℤ) : ℚ) / 1000) 0 * c.refill_rate_per_second)
    c.max_tokens

/-! ### Operation sequences over the cache, for the invariant claims. -/

/-- One cache-mutating operation of the limiter, with the `Utc::now()` it
reads (if any) made explicit. -/
inductive LimiterOp where
  | check (key : String) (now : ℤ)
  | refund (key : String) (amount : ℚ)
  | penalize (key : String) (amount : ℚ)
  | blockNow (key : String) (now : ℤ)
  | cleanup (now : ℤ)

/-- Apply one operation to the cache (discarding `check`'s returned triple). -/
def applyOp (c : RateLimitConfig) (cache : Cache) : LimiterOp → Cache
  | .check key now => (check_rate_limit c now key cache).2
  | .refund key amount => refund_tokens c key amount cache
  | .penalize key amount => consume_additional_tokens key amount cache
  | .blockNow key now => block_immediately c key now cache
  | .cleanup now => cleanup_cache c now cache

/-- Run a sequence of operations left to right. -/
def runOps (c : RateLimitConfig) (cache : Cache) : List LimiterOp → Cache
  | [] => cache
  | op :: rest => runOps c (applyOp c cache op) rest

/-- An operation whose completed state keeps every balance inside
`[0, max_tokens]`: any `check`, `block_immediately` or `cleanup`, and any
`refund` of a nonnegative amount; `penalize` is excluded (it has no lower
clamp in the source). -/
def opPreservesRange : LimiterOp → Prop
  | .penalize _ _ => False
  | .refund _ amount => 0 ≤ amount
  | _ => True

/-- An operation that never pushes a balance above `max_tokens`: everything,
with `penalize` restricted to nonnegative amounts. -/
def opPenaltyNonneg : LimiterOp → Prop
  | .penalize _ amount => 0 ≤ amount
  | _ => True

/-- Every stored balance is at most `max_tokens`. -/
def cacheTokensLe (c : RateLimitConfig) (cache : Cache) : Prop :=
  ∀ p ∈ cache, p.2.tokens ≤ c.max_tokens

/-- Every stored balance is in `[0, max_tokens]`. -/
def cacheTokensInRange (c : RateLimitConfig) (cache : Cache) : Prop :=
  ∀ p ∈ cache, 0 ≤ p.2.tokens ∧ p.2.tokens ≤ c.max_tokens

/-! ### The screening engine (src/screener.rs).

Strings handled by the screener are modelled as `List Char`; Rust's
`str::to_lowercase` is modelled as the character-wise `Char.toLower` (the
configured patterns are ASCII, where the two coincide), and
`str::contains(&str)` on valid UTF-8 is substring — `List.IsInfix` — at the
character level.  A compiled `regex::Regex` is opaque to this embedding: it is
represented by its matching function `List Char → Bool`, and `Regex::new` by
an abstract `compile` function that either fails or yields a matcher. -/

/-- Embeds `ScreeningConfig` (src/screener.rs lines 3-9). -/
structure ScreeningConfig where
  path_patterns : List (List Char)
  user_agent_patterns : List (List Char)

/-- Embeds `ScreeningReason` (src/screener.rs lines 97-101); `ScreeningResult`
is a transparent wrapper around it and is elided. -/
inductive ScreeningReason where
  | MaliciousPath : List Char → ScreeningReason
  | MaliciousUserAgent : List Char → ScreeningReason
deriving DecidableEq

/-- Embeds `RequestScreener` (src/screener.rs lines 116-119): raw pattern
paired with its compiled matcher, plus lowercased user-agent substrings. -/
structure RequestScreener where
  path_patterns : List (List Char × (List Char → Bool))
  user_agent_patterns : List (List Char)

/-- The `collect::<Result<Vec<_>, _>>` over `(p.clone(), Regex::new(p)?)` in
`RequestScreener::new` (src/screener.rs lines 123-127): compile the patterns
in order, stopping at the first failure. -/
def compilePathPatterns {ε M : Type} (compile : List Char → Except ε M) :
    List (List Char) → Except ε (List (List Char × M))
  | [] => .ok []
  | p :: rest =>
    match compile p with
    | .error e => .error e
    | .ok m =>
      match compilePathPatterns compile rest with
      | .error e => .error e
      | .ok ms => .ok ((p, m) :: ms)

/-- `RequestScreener::new` (src/screener.rs lines 122-139), parametrized by
the abstract regex compiler. -/
def RequestScreener.new {ε : Type} (compile : List Char → Except ε (List Char → Bool))
    (config : ScreeningConfig) : Except ε RequestScreener :=
  match compilePathPatterns compile config.path_patterns with
  | .error e => .error e
  | .ok pps => .ok ⟨pps, config.user_agent_patterns.map (fun p => p.map Char.toLower)⟩

/-- `RequestScreener::check` (src/screener.rs lines 141-162): first matching
path pattern in list order, else first lowercased user-agent substring hit,
else none. -/
def RequestScreener.check (s : RequestScreener) (path user_agent : List Char) :
    Option ScreeningReason :=
  match s.path_patterns.find? (fun pr => pr.2 path) with
  | some pr => some (.MaliciousPath pr.1)
  | none =>
    let user_agent_lower := user_agent.map Char.toLower
    match s.user_agent_patterns.find? (fun p => decide (p <:+: user_agent_lower)) with
    | some p => some (.MaliciousUserAgent p)
    | none => none

/-- A one-token-per-second configuration (`rate_limit_per_minute = 60`,
no grace period), used by the sub-second refill scenarios. -/
def cfg60 : RateLimitConfig := ⟨60, 900000, 0, 1/2, 2⟩

/-- A ten-token configuration with a 5-second grace period, used by the
grace-period scenario. -/
def cfgGrace : RateLimitConfig := ⟨10, 900000, 5, 1/2, 2⟩

/-! ### Helper lemmas on the cache primitives. -/

lemma lookupEntry_cons (p : String × RateLimitEntry) (rest : Cache) (key : String) :
    lookupEntry (p :: rest) key =
      if p.1 == key then some p.2 else lookupEntry rest key := by
  rcases h : p.1 == key with _ | _ <;> simp [lookupEntry, List.find?, h]

lemma updateEntry_cons (p : String × RateLimitEntry) (rest : Cache) (key : String)
    (e : RateLimitEntry) :
    updateEntry (p :: rest) key e =
      (if p.1 == key then (p.1, e) else p) :: updateEntry rest key e := rfl

lemma lookupEntry_updateEntry (cache : Cache) (key : String) (e : RateLimitEntry) :
    lookupEntry (updateEntry cache key e) key =
      (lookupEntry cache key).map (fun _ => e) := by
  induction cache with
  | nil => rfl
  | cons p rest ih =>
    rw [updateEntry_cons]
    rcases h : p.1 == key with _ | _
    · rw [lookupEntry_cons]
      simp only [h, if_neg, Bool.false_eq_true, not_false_iff, ite_false]
      rw [lookupEntry_cons, ih]
      simp [h]
    · simp only [h, ite_true]
      rw [lookupEntry_cons, lookupEntry_cons]
      simp [h]

lemma mem_updateEntry_snd (cache : Cache) (key : String) (e : RateLimitEntry)
    (p : String × RateLimitEntry) (hp : p ∈ updateEntry cache key e) :
    p.2 = e ∨ ∃ q ∈ cache, p.2 = q.2 := by
  rcases List.mem_map.mp hp with ⟨q, hq, hqe⟩
  by_cases h : q.1 == key
  · left
    simp [h] at hqe
    rw [← hqe]
  · right
    exact ⟨q, hq, by simp [h] at hqe; rw [← hqe]⟩

lemma lookupEntry_eq_none_iff (cache : Cache) (key : String) :
    lookupEntry cache key = none ↔ ∀ p ∈ cache, (p.1 == key) = false := by
  simp [lookupEntry, List.find?_eq_none]

lemma updateEntry_append_self (cache : Cache) (key : String) (e eo : RateLimitEntry)
    (hlook : lookupEntry cache key = none) :
    updateEntry (cache ++ [(key, eo)]) key e = cache ++ [(key, e)] := by
  have hall := (lookupEntry_eq_none_iff cache key).mp hlook
  unfold updateEntry
  rw [List.map_append]
  congr 1
  · exact (List.map_congr_left (fun p hp => by simp [hall p hp])).trans (List.map_id cache)
  · simp

lemma c1cache_1 : c1cache 1 = [("k", ⟨9, 0, 0, none⟩)] := by
  rw [show c1cache 1 = (c1step (c1cache 0)).2 from rfl, show c1cache 0 = [] from rfl]
  norm_num [c1step, c1cfg, check_rate_limit, lookupEntry, updateEntry, refillTokens,
    RateLimitEntry.new, RateLimitConfig.max_tokens, RateLimitConfig.refill_rate_per_second,
    durationNumSeconds]

lemma c1cache_2 : c1cache 2 = [("k", ⟨8, 0, 0, none⟩)] := by
  rw [show c1cache 2 = (c1step (c1cache 1)).2 from rfl, c1cache_1]
  norm_num [c1step, c1cfg, check_rate_limit, lookupEntry, updateEntry, refillTokens,
    RateLimitEntry.new, RateLimitConfig.max_tokens, RateLimitConfig.refill_rate_per_second,
    durationNumSeconds]

lemma c1cache_3 : c1cache 3 = [("k", ⟨7, 0, 0, none⟩)] := by
  rw [show c1cache 3 = (c1step (c1cache 2)).2 from rfl, c1cache_2]
  norm_num [c1step, c1cfg, check_rate_limit, lookupEntry, updateEntry, refillTokens,
    RateLimitEntry.new, RateLimitConfig.max_tokens, RateLimitConfig.refill_rate_per_second,
    durationNumSeconds]

lemma c1cache_4 : c1cache 4 = [("k", ⟨6, 0, 0, none⟩)] := by
  rw [show c1cache 4 = (c1step (c1cache 3)).2 from rfl, c1cache_3]
  norm_num [c1step, c1cfg, check_rate_limit, lookupEntry, updateEntry, refillTokens,
    RateLimitEntry.new, RateLimitConfig.max_tokens, RateLimitConfig.refill_rate_per_second,
    durationNumSeconds]

lemma c1cache_5 : c1cache 5 = [("k", ⟨5, 0, 0, none⟩)] := by
  rw [show c1cache 5 = (c1step (c1cache 4)).2 from rfl, c1cache_4]
  norm_num [c1step, c1cfg, check_rate_limit, lookupEntry, updateEntry, refillTokens,
    RateLimitEntry.new, RateLimitConfig.max_tokens, RateLimitConfig.refill_rate_per_second,
    durationNumSeconds]

lemma c1cache_6 : c1cache 6 = [("k", ⟨4, 0, 0, none⟩)] := by
  rw [show c1cache 6 = (c1step (c1cache 5)).2 from rfl, c1cache_5]
  norm_num [c1step, c1cfg, check_rate_limit, lookupEntry, updateEntry, refillTokens,
    RateLimitEntry.new, RateLimitConfig.max_tokens, RateLimitConfig.refill_rate_per_second,
    durationNumSeconds]

lemma c1cache_7 : c1cache 7 = [("k", ⟨3, 0, 0, none⟩)] := by
  rw [show c1cache 7 = (c1step (c1cache 6)).2 from rfl, c1cache_6]
  norm_num [c1step, c1cfg, check_rate_limit, lookupEntry, updateEntry, refillTokens,
    RateLimitEntry.new, RateLimitConfig.max_tokens, RateLimitConfig.refill_rate_per_second,
    durationNumSeconds]

lemma c1cache_8 : c1cache 8 = [("k", ⟨2, 0, 0, none⟩)] := by
  rw [show c1cache 8 = (c1step (c1cache 7)).2 from rfl, c1cache_7]
  norm_num [c1step, c1cfg, check_rate_limit, lookupEntry, updateEntry, refillTokens,
    RateLimitEntry.new, RateLimitConfig.max_tokens, RateLimitConfig.refill_rate_per_second,
    durationNumSeconds]

lemma c1cache_9 : c1cache 9 = [("k", ⟨1, 0, 0, none⟩)] := by
  rw [show c1cache 9 = (c1step (c1cache 8)).2 from rfl, c1cache_8]
  norm_num [c1step, c1cfg, check_rate_limit, lookupEntry, updateEntry, refillTokens,
    RateLimitEntry.new, RateLimitConfig.max_tokens, RateLimitConfig.refill_rate_per_second,
    durationNumSeconds]

lemma c1cache_10 : c1cache 10 = [("k", ⟨0, 0, 0, none⟩)] := by
  rw [show c1cache 10 = (c1step (c1cache 9)).2 from rfl, c1cache_9]
  norm_num [c1step, c1cfg, check_rate_limit, lookupEntry, updateEntry, refillTokens,
    RateLimitEntry.new, RateLimitConfig.max_tokens, RateLimitConfig.refill_rate_per_second,
    durationNumSeconds]

lemma c1cache_11 : c1cache 11 = [("k", ⟨0, 0, 0, some 900000⟩)] := by
  rw [show c1cache 11 = (c1step (c1cache 10)).2 from rfl, c1cache_10]
  norm_num [c1step, c1cfg, check_rate_limit, lookupEntry, updateEntry, refillTokens,
    RateLimitEntry.new, RateLimitConfig.max_tokens, RateLimitConfig.refill_rate_per_second,
    durationNumSeconds]

lemma c1cache_12 : c1cache 12 = [("k", ⟨0, 0, 0, some 900000⟩)] := by
  rw [show c1cache 12 = (c1step (c1cache 11)).2 from rfl, c1cache_11]
  norm_num [c1step, c1cfg, check_rate_limit, lookupEntry, updateEntry, refillTokens,
    RateLimitEntry.new, RateLimitConfig.max_tokens, RateLimitConfig.refill_rate_per_second,
    durationNumSeconds]

lemma c1call_0 : c1call 0 = (true, false, 9) := by
  rw [show c1call 0 = (c1step (c1cache 0)).1 from rfl, show c1cache 0 = [] from rfl]
  norm_num [c1step, c1cfg, check_rate_limit, lookupEntry, updateEntry, refillTokens,
    RateLimitEntry.new, RateLimitConfig.max_tokens, RateLimitConfig.refill_rate_per_second,
    durationNumSeconds]

lemma c1call_1 : c1call 1 = (true, false, 8) := by
  rw [show c1call 1 = (c1step (c1cache 1)).1 from rfl, c1cache_1]
  norm_num [c1step, c1cfg, check_rate_limit, lookupEntry, updateEntry, refillTokens,
    RateLimitEntry.new, RateLimitConfig.max_tokens, RateLimitConfig.refill_rate_per_second,
    durationNumSeconds]

lemma c1call_2 : c1call 2 = (true, false, 7) := by
  rw [show c1call 2 = (c1step (c1cache 2)).1 from rfl, c1cache_2]
  norm_num [c1step, c1cfg, check_rate_limit, lookupEntry, updateEntry, refillTokens,
    RateLimitEntry.new, RateLimitConfig.max_tokens, RateLimitConfig.refill_rate_per_second,
    durationNumSeconds]

lemma c1call_3 : c1call 3 = (true, false, 6) := by
  rw [show c1call 3 = (c1step (c1cache 3)).1 from rfl, c1cache_3]
  norm_num [c1step, c1cfg, check_rate_limit, lookupEntry, updateEntry, refillTokens,
    RateLimitEntry.new, RateLimitConfig.max_tokens, RateLimitConfig.refill_rate_per_second,
    durationNumSeconds]

lemma c1call_4 : c1call 4 = (true, false, 5) := by
  rw [show c1call 4 = (c1step (c1cache 4)).1 from rfl, c1cache_4]
  norm_num [c1step, c1cfg, check_rate_limit, lookupEntry, updateEntry, refillTokens,
    RateLimitEntry.new, RateLimitConfig.max_tokens, RateLimitConfig.refill_rate_per_second,
    durationNumSeconds]

lemma c1call_5 : c1call 5 = (true, false, 4) := by
  rw [show c1call 5 = (c1step (c1cache 5)).1 from rfl, c1cache_5]
  norm_num [c1step, c1cfg, check_rate_limit, lookupEntry, updateEntry, refillTokens,
    RateLimitEntry.new, RateLimitConfig.max_tokens, RateLimitConfig.refill_rate_per_second,
    durationNumSeconds]

lemma c1call_6 : c1call 6 = (true, false, 3) := by
  rw [show c1call 6 = (c1step (c1cache 6)).1 from rfl, c1cache_6]
  norm_num [c1step, c1cfg, check_rate_limit, lookupEntry, updateEntry, refillTokens,
    RateLimitEntry.new, RateLimitConfig.max_tokens, RateLimitConfig.refill_rate_per_second,
    durationNumSeconds]

lemma c1call_7 : c1call 7 = (true, false, 2) := by
  rw [show c1call 7 = (c1step (c1cache 7)).1 from rfl, c1cache_7]
  norm_num [c1step, c1cfg, check_rate_limit, lookupEntry, updateEntry, refillTokens,
    RateLimitEntry.new, RateLimitConfig.max_tokens, RateLimitConfig.refill_rate_per_second,
    durationNumSeconds]

lemma c1call_8 : c1call 8 = (true, false, 1) := by
  rw [show c1call 8 = (c1step (c1cache 8)).1 from rfl, c1cache_8]
  norm_num [c1step, c1cfg, check_rate_limit, lookupEntry, updateEntry, refillTokens,
    RateLimitEntry.new, RateLimitConfig.max_tokens, RateLimitConfig.refill_rate_per_second,
    durationNumSeconds]

lemma c1call_9 : c1call 9 = (true, false, 0) := by
  rw [show c1call 9 = (c1step (c1cache 9)).1 from rfl, c1cache_9]
  norm_num [c1step, c1cfg, check_rate_limit, lookupEntry, updateEntry, refillTokens,
    RateLimitEntry.new, RateLimitConfig.max_tokens, RateLimitConfig.refill_rate_per_second,
    durationNumSeconds]

lemma c1call_10 : c1call 10 = (false, true, 0) := by
  rw [show c1call 10 = (c1step (c1cache 10)).1 from rfl, c1cache_10]
  norm_num [c1step, c1cfg, check_rate_limit, lookupEntry, updateEntry, refillTokens,
    RateLimitEntry.new, RateLimitConfig.max_tokens, RateLimitConfig.refill_rate_per_second,
    durationNumSeconds]

lemma c1call_11 : c1call 11 = (false, false, 0) := by
  rw [show c1call 11 = (c1step (c1cache 11)).1 from rfl, c1cache_11]
  norm_num [c1step, c1cfg, check_rate_limit, lookupEntry, updateEntry, refillTokens,
    RateLimitEntry.new, RateLimitConfig.max_tokens, RateLimitConfig.refill_rate_per_second,
    durationNumSeconds]

/-- C1: in the scenario `max_tokens = 10`, `period = 60 s`, `grace_period = 0`,
with no time passing between calls, the first 10 `check` calls on the fresh key
return `(true, false, remaining)` with `remaining` the balance after consuming
one unit (9, 8, …, 0); the 11th call returns `(false, true, 0)` and stores
`blocked_until = now + block_duration = 0 + 900000 ms`; the 12th call,
issued immediately after, returns `(false, false, 0)`. -/
theorem check_rate_limit_fresh_key_scenario :
    c1call 0 = (true, false, 9) ∧ c1call 1 = (true, false, 8) ∧
    c1call 2 = (true, false, 7) ∧ c1call 3 = (true, false, 6) ∧
    c1call 4 = (true, false, 5) ∧ c1call 5 = (true, false, 4) ∧
    c1call 6 = (true, false, 3) ∧ c1call 7 = (true, false, 2) ∧
    c1call 8 = (true, false, 1) ∧ c1call 9 = (true, false, 0) ∧
    c1call 10 = (false, true, 0) ∧
    lookupEntry (c1cache 11) "k" = some ⟨0, 0, 0, some (0 + 900000)⟩ ∧
    c1call 11 = (false, false, 0) := by
  refine ⟨c1call_0, c1call_1, c1call_2, c1call_3, c1call_4, c1call_5, c1call_6,
    c1call_7, c1call_8, c1call_9, c1call_10, ?_, c1call_11⟩
  rw [c1cache_11]
  norm_num [lookupEntry]

/-! ### Branch lemmas for `check_rate_limit`, one per path through the source. -/

lemma check_rate_limit_active_block
    (c : RateLimitConfig) (now : ℤ) (key : String) (cache : Cache)
    (e : RateLimitEntry) (b : ℤ)
    (hlook : lookupEntry cache key = some e) (hb : e.blocked_until = some b)
    (h : now < b) :
    check_rate_limit c now key cache = ((false, false, 0), cache) := by
  simp only [check_rate_limit, hlook, hb]
  simp [h]

lemma check_rate_limit_grace
    (c : RateLimitConfig) (now : ℤ) (key : String) (cache : Cache)
    (e : RateLimitEntry)
    (hlook : lookupEntry cache key = some e)
    (hnb : ∀ b, e.blocked_until = some b → ¬ now < b)
    (hg : durationNumSeconds (now - e.created_at) < (c.grace_period_seconds : ℤ)) :
    check_rate_limit c now key cache =
      ((true, false, c.max_tokens), updateEntry cache key e) := by
  simp only [check_rate_limit, hlook]
  cases hb : e.blocked_until with
  | none => simp [hg]
  | some b => simp [hnb b hb, hg]

lemma check_rate_limit_consume
    (c : RateLimitConfig) (now : ℤ) (key : String) (cache : Cache)
    (e : RateLimitEntry)
    (hlook : lookupEntry cache key = some e)
    (hnb : ∀ b, e.blocked_until = some b → ¬ now < b)
    (hg : ¬ durationNumSeconds (now - e.created_at) < (c.grace_period_seconds : ℤ))
    (ht : 1 ≤ refillTokens c now e) :
    check_rate_limit c now key cache =
      ((true, false, refillTokens c now e - 1),
        updateEntry cache key
          { e with tokens := refillTokens c now e - 1, last_refill := now }) := by
  simp only [check_rate_limit, hlook]
  cases hb : e.blocked_until with
  | none => simp [hg, ht]
  | some b => simp [hnb b hb, hg, ht]

lemma check_rate_limit_newly_blocked
    (c : RateLimitConfig) (now : ℤ) (key : String) (cache : Cache)
    (e : RateLimitEntry)
    (hlook : lookupEntry cache key = some e)
    (hb : e.blocked_until = none)
    (hg : ¬ durationNumSeconds (now - e.created_at) < (c.grace_period_seconds : ℤ))
    (ht : ¬ 1 ≤ refillTokens c now e) :
    check_rate_limit c now key cache =
      ((false, true, 0),
        updateEntry cache key
          { e with tokens := refillTokens c now e, last_refill := now,
                   blocked_until := some (now + c.block_duration_ms) }) := by
  simp only [check_rate_limit, hlook, hb]
  simp [hg, ht]

lemma check_rate_limit_expired_insufficient
    (c : RateLimitConfig) (now : ℤ) (key : String) (cache : Cache)
    (e : RateLimitEntry) (b : ℤ)
    (hlook : lookupEntry cache key = some e)
    (hb : e.blocked_until = some b)
    (hnb : ¬ now < b)
    (hg : ¬ durationNumSeconds (now - e.created_at) < (c.grace_period_seconds : ℤ))
    (ht : ¬ 1 ≤ refillTokens c now e) :
    check_rate_limit c now key cache =
      ((false, false, 0),
        updateEntry cache key
          { e with tokens := refillTokens c now e, last_refill := now }) := by
  simp only [check_rate_limit, hlook, hb]
  simp [hnb, hg, ht, hb]

lemma refillTokens_new_self (c : RateLimitConfig) (now : ℤ) :
    refillTokens c now (RateLimitEntry.new c.max_tokens now) = c.max_tokens := by
  simp [refillTokens, RateLimitEntry.new, durationNumSeconds]

lemma check_rate_limit_fresh_grace
    (c : RateLimitConfig) (now : ℤ) (key : String) (cache : Cache)
    (hlook : lookupEntry cache key = none)
    (hg : 0 < (c.grace_period_seconds : ℤ)) :
    check_rate_limit c now key cache =
      ((true, false, c.max_tokens),
        cache ++ [(key, RateLimitEntry.new c.max_tokens now)]) := by
  simp only [check_rate_limit, hlook]
  simp only [RateLimitEntry.new, sub_self, durationNumSeconds, Int.zero_tdiv]
  rw [if_pos hg]
  rw [updateEntry_append_self cache key _ _ hlook]
  simp [RateLimitEntry.new]

lemma check_rate_limit_fresh_consume
    (c : RateLimitConfig) (now : ℤ) (key : String) (cache : Cache)
    (hlook : lookupEntry cache key = none)
    (hg : ¬ 0 < (c.grace_period_seconds : ℤ))
    (hm : 1 ≤ c.max_tokens) :
    check_rate_limit c now key cache =
      ((true, false, c.max_tokens - 1),
        cache ++ [(key, ⟨c.max_tokens - 1, now, now, none⟩)]) := by
  simp only [check_rate_limit, hlook]
  simp only [show RateLimitEntry.created_at (RateLimitEntry.new c.max_tokens now) = now
    from rfl, sub_self, durationNumSeconds, Int.zero_tdiv]
  rw [if_neg hg, refillTokens_new_self]
  rw [if_pos hm]
  rw [updateEntry_append_self cache key _ _ hlook]
  simp [RateLimitEntry.new]

lemma check_rate_limit_fresh_blocked
    (c : RateLimitConfig) (now : ℤ) (key : String) (cache : Cache)
    (hlook : lookupEntry cache key = none)
    (hg : ¬ 0 < (c.grace_period_seconds : ℤ))
    (hm : ¬ 1 ≤ c.max_tokens) :
    check_rate_limit c now key cache =
      ((false, true, 0),
        cache ++ [(key, ⟨c.max_tokens, now, now, some (now + c.block_duration_ms)⟩)]) := by
  simp only [check_rate_limit, hlook]
  simp only [show RateLimitEntry.created_at (RateLimitEntry.new c.max_tokens now) = now
    from rfl, sub_self, durationNumSeconds, Int.zero_tdiv]
  rw [if_neg hg, refillTokens_new_self]
  rw [if_neg hm]
  rw [updateEntry_append_self cache key _ _ hlook]
  simp [RateLimitEntry.new]

/-! ### Bound lemmas for the token arithmetic. -/

lemma max_tokens_nonneg (c : RateLimitConfig) : 0 ≤ c.max_tokens := by
  simp [RateLimitConfig.max_tokens]

lemma refill_rate_nonneg (c : RateLimitConfig) : 0 ≤ c.refill_rate_per_second := by
  unfold RateLimitConfig.refill_rate_per_second
  positivity

lemma refillTokens_le_max (c : RateLimitConfig) (now : ℤ) (e : RateLimitEntry) :
    refillTokens c now e ≤ c.max_tokens := min_le_right _ _

lemma refillTokens_nonneg (c : RateLimitConfig) (now : ℤ) (e : RateLimitEntry)
    (h : 0 ≤ e.tokens) : 0 ≤ refillTokens c now e := by
  unfold refillTokens
  apply le_min _ (max_tokens_nonneg c)
  have hel : (0 : ℚ) ≤ ((max (durationNumSeconds (now - e.last_refill)) 0 : ℤ) : ℚ) := by
    exact_mod_cast le_max_right _ 0
  exact add_nonneg h (mul_nonneg hel (refill_rate_nonneg c))

lemma lookupEntry_mem (cache : Cache) (key : String) (e : RateLimitEntry)
    (h : lookupEntry cache key = some e) : ∃ q ∈ cache, q.2 = e := by
  unfold lookupEntry at h
  rcases Option.map_eq_some'.mp h with ⟨q, hq, hqe⟩
  exact ⟨q, List.mem_of_find?_eq_some hq, hqe⟩

lemma cacheTokensLe_updateEntry (c : RateLimitConfig) (cache : Cache) (key : String)
    (e : RateLimitEntry) (hc : cacheTokensLe c cache) (he : e.tokens ≤ c.max_tokens) :
    cacheTokensLe c (updateEntry cache key e) := by
  intro p hp
  rcases mem_updateEntry_snd cache key e p hp with h | ⟨q, hq, hpq⟩
  · rw [h]; exact he
  · rw [hpq]; exact hc q hq

lemma cacheTokensLe_append (c : RateLimitConfig) (cache : Cache) (key : String)
    (e : RateLimitEntry) (hc : cacheTokensLe c cache) (he : e.tokens ≤ c.max_tokens) :
    cacheTokensLe c (cache ++ [(key, e)]) := by
  intro p hp
  rcases List.mem_append.mp hp with h | h
  · exact hc p h
  · rcases List.mem_singleton.mp h with rfl
    exact he

lemma cacheTokensInRange_updateEntry (c : RateLimitConfig) (cache : Cache) (key : String)
    (e : RateLimitEntry) (hc : cacheTokensInRange c cache)
    (he : 0 ≤ e.tokens ∧ e.tokens ≤ c.max_tokens) :
    cacheTokensInRange c (updateEntry cache key e) := by
  intro p hp
  rcases mem_updateEntry_snd cache key e p hp with h | ⟨q, hq, hpq⟩
  · rw [h]; exact he
  · rw [hpq]; exact hc q hq

lemma cacheTokensInRange_append (c : RateLimitConfig) (cache : Cache) (key : String)
    (e : RateLimitEntry) (hc : cacheTokensInRange c cache)
    (he : 0 ≤ e.tokens ∧ e.tokens ≤ c.max_tokens) :
    cacheTokensInRange c (cache ++ [(key, e)]) := by
  intro p hp
  rcases List.mem_append.mp hp with h | h
  · exact hc p h
  · rcases List.mem_singleton.mp h with rfl
    exact he

/-! ### Per-operation preservation of the token bounds. -/

lemma cacheTokensLe_check (c : RateLimitConfig) (now : ℤ) (key : String) (cache : Cache)
    (hc : cacheTokensLe c cache) :
    cacheTokensLe c (check_rate_limit c now key cache).2 := by
  cases hlook : lookupEntry cache key with
  | none =>
    by_cases hg : 0 < (c.grace_period_seconds : ℤ)
    · rw [check_rate_limit_fresh_grace c now key cache hlook hg]
      exact cacheTokensLe_append c cache key _ hc le_rfl
    · by_cases hm : 1 ≤ c.max_tokens
      · rw [check_rate_limit_fresh_consume c now key cache hlook hg hm]
        exact cacheTokensLe_append c cache key _ hc (by simp)
      · rw [check_rate_limit_fresh_blocked c now key cache hlook hg hm]
        exact cacheTokensLe_append c cache key _ hc le_rfl
  | some e =>
    have hmem : e.tokens ≤ c.max_tokens := by
      rcases lookupEntry_mem cache key e hlook with ⟨q, hq, hqe⟩
      rw [← hqe]; exact hc q hq
    cases hb : e.blocked_until with
    | some b =>
      by_cases hnb : now < b
      · rw [check_rate_limit_active_block c now key cache e b hlook hb hnb]
        exact hc
      · by_cases hg : durationNumSeconds (now - e.created_at) < (c.grace_period_seconds : ℤ)
        · rw [check_rate_limit_grace c now key cache e hlook
            (fun b' hb' => by rw [hb] at hb'; cases hb'; exact hnb) hg]
          exact cacheTokensLe_updateEntry c cache key e hc hmem
        · by_cases ht : 1 ≤ refillTokens c now e
          · rw [check_rate_limit_consume c now key cache e hlook
              (fun b' hb' => by rw [hb] at hb'; cases hb'; exact hnb) hg ht]
            exact cacheTokensLe_updateEntry c cache key _ hc
              (by simp; linarith [refillTokens_le_max c now e])
          · rw [check_rate_limit_expired_insufficient c now key cache e b hlook hb hnb hg ht]
            exact cacheTokensLe_updateEntry c cache key _ hc
              (by simp [refillTokens_le_max c now e])
    | none =>
      by_cases hg : durationNumSeconds (now - e.created_at) < (c.grace_period_seconds : ℤ)
      · rw [check_rate_limit_grace c now key cache e hlook
          (fun b' hb' => by rw [hb] at hb'; cases hb') hg]
        exact cacheTokensLe_updateEntry c cache key e hc hmem
      · by_cases ht : 1 ≤ refillTokens c now e
        · rw [check_rate_limit_consume c now key cache e hlook
            (fun b' hb' => by rw [hb] at hb'; cases hb') hg ht]
          exact cacheTokensLe_updateEntry c cache key _ hc
            (by simp; linarith [refillTokens_le_max c now e])
        · rw [check_rate_limit_newly_blocked c now key cache e hlook hb hg ht]
          exact cacheTokensLe_updateEntry c cache key _ hc
            (by simp [refillTokens_le_max c now e])

lemma cacheTokensLe_refund (c : RateLimitConfig) (key : String) (amount : ℚ) (cache : Cache)
    (hc : cacheTokensLe c cache) :
    cacheTokensLe c (refund_tokens c key amount cache) := by
  unfold refund_tokens
  cases hlook : lookupEntry cache key with
  | none => exact hc
  | some e => exact cacheTokensLe_updateEntry c cache key _ hc (by simp [min_le_right])

lemma cacheTokensLe_penalize (c : RateLimitConfig) (key : String) (amount : ℚ) (cache : Cache)
    (hc : cacheTokensLe c cache) (ha : 0 ≤ amount) :
    cacheTokensLe c (consume_additional_tokens key amount cache) := by
  unfold consume_additional_tokens
  cases hlook : lookupEntry cache key with
  | none => exact hc
  | some e =>
    have hmem : e.tokens ≤ c.max_tokens := by
      rcases lookupEntry_mem cache key e hlook with ⟨q, hq, hqe⟩
      rw [← hqe]; exact hc q hq
    exact cacheTokensLe_updateEntry c cache key _ hc (by simp; linarith)

lemma cacheTokensLe_block (c : RateLimitConfig) (key : String) (now : ℤ) (cache : Cache)
    (hc : cacheTokensLe c cache) :
    cacheTokensLe c (block_immediately c key now cache) := by
  unfold block_immediately
  cases hlook : lookupEntry cache key with
  | none =>
    simp only
    exact cacheTokensLe_updateEntry c _ key _
      (cacheTokensLe_append c cache key _ hc le_rfl) (max_tokens_nonneg c)
  | some e =>
    simp only
    exact cacheTokensLe_updateEntry c cache key _ hc (max_tokens_nonneg c)

lemma cacheTokensLe_cleanup (c : RateLimitConfig) (now : ℤ) (cache : Cache)
    (hc : cacheTokensLe c cache) :
    cacheTokensLe c (cleanup_cache c now cache) := by
  intro p hp
  exact hc p (List.mem_filter.mp hp).1

lemma cacheTokensInRange_check (c : RateLimitConfig) (now : ℤ) (key : String) (cache : Cache)
    (hc : cacheTokensInRange c cache) :
    cacheTokensInRange c (check_rate_limit c now key cache).2 := by
  cases hlook : lookupEntry cache key with
  | none =>
    by_cases hg : 0 < (c.grace_period_seconds : ℤ)
    · rw [check_rate_limit_fresh_grace c now key cache hlook hg]
      exact cacheTokensInRange_append c cache key _ hc
        ⟨by simp [RateLimitEntry.new, max_tokens_nonneg], by simp [RateLimitEntry.new]⟩
    · by_cases hm : 1 ≤ c.max_tokens
      · rw [check_rate_limit_fresh_consume c now key cache hlook hg hm]
        exact cacheTokensInRange_append c cache key _ hc ⟨by simp; linarith, by simp⟩
      · rw [check_rate_limit_fresh_blocked c now key cache hlook hg hm]
        exact cacheTokensInRange_append c cache key _ hc
          ⟨by simp [max_tokens_nonneg], by simp⟩
  | some e =>
    have hmem : 0 ≤ e.tokens ∧ e.tokens ≤ c.max_tokens := by
      rcases lookupEntry_mem cache key e hlook with ⟨q, hq, hqe⟩
      rw [← hqe]; exact hc q hq
    have hrf : 0 ≤ refillTokens c now e ∧ refillTokens c now e ≤ c.max_tokens :=
      ⟨refillTokens_nonneg c now e hmem.1, refillTokens_le_max c now e⟩
    cases hb : e.blocked_until with
    | some b =>
      by_cases hnb : now < b
      · rw [check_rate_limit_active_block c now key cache e b hlook hb hnb]
        exact hc
      · by_cases hg : durationNumSeconds (now - e.created_at) < (c.grace_period_seconds : ℤ)
        · rw [check_rate_limit_grace c now key cache e hlook
            (fun b' hb' => by rw [hb] at hb'; cases hb'; exact hnb) hg]
          exact cacheTokensInRange_updateEntry c cache key e hc hmem
        · by_cases ht : 1 ≤ refillTokens c now e
          · rw [check_rate_limit_consume c now key cache e hlook
              (fun b' hb' => by rw [hb] at hb'; cases hb'; exact hnb) hg ht]
            exact cacheTokensInRange_updateEntry c cache key _ hc
              ⟨by simp; linarith, by simp; linarith [hrf.2]⟩
          · rw [check_rate_limit_expired_insufficient c now key cache e b hlook hb hnb hg ht]
            exact cacheTokensInRange_updateEntry c cache key _ hc ⟨by simp [hrf.1], by simp [hrf.2]⟩
    | none =>
      by_cases hg : durationNumSeconds (now - e.created_at) < (c.grace_period_seconds : ℤ)
      · rw [check_rate_limit_grace c now key cache e hlook
          (fun b' hb' => by rw [hb] at hb'; cases hb') hg]
        exact cacheTokensInRange_updateEntry c cache key e hc hmem
      · by_cases ht : 1 ≤ refillTokens c now e
        · rw [check_rate_limit_consume c now key cache e hlook
            (fun b' hb' => by rw [hb] at hb'; cases hb') hg ht]
          exact cacheTokensInRange_updateEntry c cache key _ hc
            ⟨by simp; linarith, by simp; linarith [hrf.2]⟩
        · rw [check_rate_limit_newly_blocked c now key cache e hlook hb hg ht]
          exact cacheTokensInRange_updateEntry c cache key _ hc ⟨by simp [hrf.1], by simp [hrf.2]⟩

lemma cacheTokensInRange_refund (c : RateLimitConfig) (key : String) (amount : ℚ)
    (cache : Cache) (hc : cacheTokensInRange c cache) (ha : 0 ≤ amount) :
    cacheTokensInRange c (refund_tokens c key amount cache) := by
  unfold refund_tokens
  cases hlook : lookupEntry cache key with
  | none => exact hc
  | some e =>
    have hmem : 0 ≤ e.tokens ∧ e.tokens ≤ c.max_tokens := by
      rcases lookupEntry_mem cache key e hlook with ⟨q, hq, hqe⟩
      rw [← hqe]; exact hc q hq
    exact cacheTokensInRange_updateEntry c cache key _ hc
      ⟨le_min (add_nonneg hmem.1 ha) (max_tokens_nonneg c), min_le_right _ _⟩

lemma cacheTokensInRange_block (c : RateLimitConfig) (key : String) (now : ℤ) (cache : Cache)
    (hc : cacheTokensInRange c cache) :
    cacheTokensInRange c (block_immediately c key now cache) := by
  unfold block_immediately
  cases hlook : lookupEntry cache key with
  | none =>
    simp only
    exact cacheTokensInRange_updateEntry c _ key _
      (cacheTokensInRange_append c cache key _ hc
        ⟨by simp [RateLimitEntry.new, max_tokens_nonneg], by simp [RateLimitEntry.new]⟩)
      ⟨le_rfl, max_tokens_nonneg c⟩
  | some e =>
    simp only
    exact cacheTokensInRange_updateEntry c cache key _ hc ⟨le_rfl, max_tokens_nonneg c⟩

lemma cacheTokensInRange_cleanup (c : RateLimitConfig) (now : ℤ) (cache : Cache)
    (hc : cacheTokensInRange c cache) :
    cacheTokensInRange c (cleanup_cache c now cache) := by
  intro p hp
  exact hc p (List.mem_filter.mp hp).1

/-- C5: for every key and every sequence of `check`, `refund`, `penalize`,
`block_immediately`, `cleanup` and entry-creation operations (entries are
created inside `check` / `block_immediately`), the stored token balance of
every entry stays at most `max_tokens` after each operation completes.
Penalty amounts are nonnegative, as the configuration surface guarantees
(`with_error_penalty` floors the penalty at 0). -/
theorem tokens_never_exceed_max (c : RateLimitConfig) (ops : List LimiterOp) :
    ∀ cache : Cache, cacheTokensLe c cache → (∀ op ∈ ops, opPenaltyNonneg op) →
      cacheTokensLe c (runOps c cache ops) := by
  induction ops with
  | nil => intro cache hc _; exact hc
  | cons op rest ih =>
    intro cache hc hops
    have step : cacheTokensLe c (applyOp c cache op) := by
      cases op with
      | check key now => exact cacheTokensLe_check c now key cache hc
      | refund key amount => exact cacheTokensLe_refund c key amount cache hc
      | penalize key amount =>
        exact cacheTokensLe_penalize c key amount cache hc (hops _ (List.mem_cons_self _ _))
      | blockNow key now => exact cacheTokensLe_block c key now cache hc
      | cleanup now => exact cacheTokensLe_cleanup c now cache hc
    exact ih _ step (fun o ho => hops o (List.mem_cons_of_mem _ ho))

/-- Witness for `tokens_never_exceed_max`: a concrete run (one consuming check,
then a 2-token penalty) from the empty cache, under the ten-token
configuration. -/
theorem tokens_never_exceed_max_witness :
    cacheTokensLe c1cfg (runOps c1cfg [] [.check "k" 0, .penalize "k" 2]) :=
  tokens_never_exceed_max c1cfg [.check "k" 0, .penalize "k" 2] []
    (by intro p hp; simp at hp)
    (by simp [opPenaltyNonneg])

/-- Counterexample to C2 as stated: starting from the empty cache, one `check`
(which creates the entry with 10 tokens and consumes one) followed by
`consume_additional_tokens` of 20 leaves the stored balance at `-11 < 0` —
the penalty path has no lower clamp. -/
theorem penalize_leaves_tokens_negative :
    lookupEntry (runOps c1cfg [] [.check "k" 0, .penalize "k" 20]) "k" =
      some ⟨-11, 0, 0, none⟩ ∧ ((-11 : ℚ) < 0) := by
  constructor
  · rw [show runOps c1cfg [] [.check "k" 0, .penalize "k" 20] =
      consume_additional_tokens "k" 20 (check_rate_limit c1cfg 0 "k" []).2 from rfl]
    norm_num [check_rate_limit, consume_additional_tokens, lookupEntry, updateEntry,
      refillTokens, RateLimitEntry.new, c1cfg, RateLimitConfig.max_tokens,
      RateLimitConfig.refill_rate_per_second, durationNumSeconds]
  · norm_num

/-- C2 (amended): after every completed `check`, `refund` of a nonnegative
amount, `block_immediately`, `cleanup`, and entry creation, every stored
balance satisfies `0 ≤ tokens ≤ max_tokens`; `penalize` is excluded — it
keeps the upper bound (see C5) but can leave the balance negative. -/
theorem tokens_in_range_after_ops (c : RateLimitConfig) (ops : List LimiterOp) :
    ∀ cache : Cache, cacheTokensInRange c cache → (∀ op ∈ ops, opPreservesRange op) →
      cacheTokensInRange c (runOps c cache ops) := by
  induction ops with
  | nil => intro cache hc _; exact hc
  | cons op rest ih =>
    intro cache hc hops
    have step : cacheTokensInRange c (applyOp c cache op) := by
      cases op with
      | check key now => exact cacheTokensInRange_check c now key cache hc
      | refund key amount =>
        exact cacheTokensInRange_refund c key amount cache hc
          (hops _ (List.mem_cons_self _ _))
      | penalize key amount => exact absurd (hops _ (List.mem_cons_self _ _)) (by simp [opPreservesRange])
      | blockNow key now => exact cacheTokensInRange_block c key now cache hc
      | cleanup now => exact cacheTokensInRange_cleanup c now cache hc
    exact ih _ step (fun o ho => hops o (List.mem_cons_of_mem _ ho))

/-- Witness for `tokens_in_range_after_ops`: a concrete penalty-free run from
the empty cache. -/
theorem tokens_in_range_after_ops_witness :
    cacheTokensInRange c1cfg
      (runOps c1cfg [] [.check "k" 0, .refund "k" 1, .blockNow "k" 5, .cleanup 10]) :=
  tokens_in_range_after_ops c1cfg [.check "k" 0, .refund "k" 1, .blockNow "k" 5, .cleanup 10]
    [] (by intro p hp; simp at hp) (by simp [opPreservesRange])

/-- C3: once `blocked_until` is `some b`, `check_rate_limit` never writes
`blocked_until` again — after any `check` the entry still carries
`blocked_until = some b`; in particular, when the block has expired
(`¬ now < b`), the grace period is over, and the refilled balance is below
one token, `check` returns `(false, false, 0)` and installs no new block;
only `block_immediately` gives such an entry a new `blocked_until`. -/
theorem check_never_rewrites_blocked_until
    (c : RateLimitConfig) (now : ℤ) (key : String) (cache : Cache)
    (e : RateLimitEntry) (b : ℤ)
    (hlook : lookupEntry cache key = some e) (hb : e.blocked_until = some b) :
    (∃ e', lookupEntry (check_rate_limit c now key cache).2 key = some e' ∧
        e'.blocked_until = some b) ∧
    (¬ now < b →
      ¬ durationNumSeconds (now - e.created_at) < (c.grace_period_seconds : ℤ) →
      refillTokens c now e < 1 →
      check_rate_limit c now key cache =
        ((false, false, 0),
          updateEntry cache key { e with tokens := refillTokens c now e, last_refill := now })) ∧
    (∃ e', lookupEntry (block_immediately c key now cache) key = some e' ∧
        e'.blocked_until = some (now + c.block_duration_ms)) := by
  refine ⟨?_, ?_, ?_⟩
  · by_cases hnb : now < b
    · rw [check_rate_limit_active_block c now key cache e b hlook hb hnb]
      exact ⟨e, hlook, hb⟩
    · by_cases hg : durationNumSeconds (now - e.created_at) < (c.grace_period_seconds : ℤ)
      · rw [check_rate_limit_grace c now key cache e hlook
          (fun b' hb' => by rw [hb] at hb'; cases hb'; exact hnb) hg]
        exact ⟨e, by rw [lookupEntry_updateEntry, hlook]; rfl, hb⟩
      · by_cases ht : 1 ≤ refillTokens c now e
        · rw [check_rate_limit_consume c now key cache e hlook
            (fun b' hb' => by rw [hb] at hb'; cases hb'; exact hnb) hg ht]
          exact ⟨{ e with tokens := refillTokens c now e - 1, last_refill := now },
            by rw [lookupEntry_updateEntry, hlook]; rfl, hb⟩
        · rw [check_rate_limit_expired_insufficient c now key cache e b hlook hb hnb hg ht]
          exact ⟨{ e with tokens := refillTokens c now e, last_refill := now },
            by rw [lookupEntry_updateEntry, hlook]; rfl, hb⟩
  · intro hnb hg ht
    exact check_rate_limit_expired_insufficient c now key cache e b hlook hb hnb hg
      (by linarith)
  · unfold block_immediately
    rw [hlook]
    exact ⟨{ e with tokens := 0, blocked_until := some (now + c.block_duration_ms) },
      by rw [lookupEntry_updateEntry, hlook]; rfl, rfl⟩

/-- Witness for `check_never_rewrites_blocked_until`: an entry whose block
expired at time `-5`, drained to 0 tokens, checked at time `0` under the
ten-token-per-minute configuration with no grace period. -/
theorem check_never_rewrites_blocked_until_witness :
    (check_rate_limit c1cfg 0 "k" [("k", ⟨0, 0, 0, some (-5)⟩)]).1 = (false, false, 0) := by
  have h := (check_never_rewrites_blocked_until c1cfg 0 "k"
      [("k", ⟨0, 0, 0, some (-5)⟩)] ⟨0, 0, 0, some (-5)⟩ (-5)
      (by norm_num [lookupEntry]) rfl).2.1
    (by norm_num)
    (by norm_num [durationNumSeconds, c1cfg])
    (by norm_num [refillTokens, c1cfg, durationNumSeconds,
      RateLimitConfig.refill_rate_per_second, RateLimitConfig.max_tokens])
  rw [h]

/-- Counterexample to C4 as stated: the source computes `elapsed` with
`Duration::num_seconds()`, the *whole* (truncated) second count, not the
continuous real-valued duration.  With 1 token/second, an empty bucket and
1.5 s elapsed, the code refills exactly 1 token and `check` returns
`(true, false, 0)`, while the continuous-elapsed formula of the claim
predicts a remaining balance of `1/2` after the consumption. -/
theorem refill_not_continuous_counterexample :
    (check_rate_limit cfg60 1500 "k" [("k", ⟨0, 0, -100000, none⟩)]).1 = (true, false, 0) ∧
    specContinuousRefillTokens cfg60 1500 ⟨0, 0, -100000, none⟩ - 1 = 1/2 ∧
    ((0 : ℚ) ≠ 1/2) := by
  have hr : refillTokens cfg60 1500 ⟨0, 0, -100000, none⟩ = 1 := by
    rw [refillTokens, show durationNumSeconds ((1500 : ℤ) - 0) = 1 from by decide]
    norm_num [cfg60, RateLimitConfig.refill_rate_per_second, RateLimitConfig.max_tokens]
  refine ⟨?_, ?_, by norm_num⟩
  · have h := check_rate_limit_consume cfg60 1500 "k" [("k", ⟨0, 0, -100000, none⟩)]
      ⟨0, 0, -100000, none⟩ (by norm_num [lookupEntry]) (fun b hb => by simp at hb)
      (by rw [show durationNumSeconds ((1500 : ℤ) - (-100000)) = 101 from by decide]
          norm_num [cfg60])
      (by rw [hr])
    rw [h, hr]
    norm_num
  · norm_num [specContinuousRefillTokens, cfg60, RateLimitConfig.refill_rate_per_second,
      RateLimitConfig.max_tokens, max_def, min_def]

/-- C4 (amended): outside the grace period and with no active block,
`check` sets `last_refill = now` and refills by
`elapsed = max(0, num_seconds(now - last_refill))` — the *whole-second*
(truncated) duration, floored at zero so clock values that appear to move
backward are normalized rather than rejected — then clamps at `max_tokens`
and consumes one token when the result is at least 1. -/
theorem check_rate_limit_refill_whole_seconds
    (c : RateLimitConfig) (now : ℤ) (key : String) (cache : Cache) (e : RateLimitEntry)
    (hlook : lookupEntry cache key = some e)
    (hnb : ∀ b, e.blocked_until = some b → ¬ now < b)
    (hg : ¬ durationNumSeconds (now - e.created_at) < (c.grace_period_seconds : ℤ)) :
    ∃ e', lookupEntry (check_rate_limit c now key cache).2 key = some e' ∧
      e'.last_refill = now ∧
      e'.tokens = (if 1 ≤ refillTokens c now e then refillTokens c now e - 1
        else refillTokens c now e) ∧
      refillTokens c now e =
        min (e.tokens + ((max (durationNumSeconds (now - e.last_refill)) 0 : ℤ) : ℚ)
              * c.refill_rate_per_second)
          c.max_tokens := by
  by_cases ht : 1 ≤ refillTokens c now e
  · rw [check_rate_limit_consume c now key cache e hlook hnb hg ht]
    exact ⟨{ e with tokens := refillTokens c now e - 1, last_refill := now },
      by rw [lookupEntry_updateEntry, hlook]; rfl, rfl, by rw [if_pos ht], rfl⟩
  · cases hb : e.blocked_until with
    | none =>
      rw [check_rate_limit_newly_blocked c now key cache e hlook hb hg ht]
      refine ⟨{ e with
          tokens := refillTokens c now e
          last_refill := now
          blocked_until := some (now + c.block_duration_ms) },
        ?_, rfl, by rw [if_neg ht], rfl⟩
      rw [lookupEntry_updateEntry, hlook]; rfl
    | some b =>
      rw [check_rate_limit_expired_insufficient c now key cache e b hlook hb (hnb b hb) hg ht]
      exact ⟨{ e with tokens := refillTokens c now e, last_refill := now },
        by rw [lookupEntry_updateEntry, hlook]; rfl, rfl, by rw [if_neg ht], rfl⟩

/-- Witness for `check_rate_limit_refill_whole_seconds`, at a clock that moved
backward (`now = -5000` while `last_refill = 0`): elapsed is floored to zero,
no tokens are refilled, and one token of the existing 3 is consumed. -/
theorem check_rate_limit_refill_whole_seconds_witness :
    ∃ e', lookupEntry (check_rate_limit cfg60 (-5000) "k"
        [("k", ⟨3, 0, -1000000, none⟩)]).2 "k" = some e' ∧
      e'.last_refill = -5000 ∧ e'.tokens = 2 := by
  obtain ⟨e', h1, h2, h3, _⟩ := check_rate_limit_refill_whole_seconds cfg60 (-5000) "k"
    [("k", ⟨3, 0, -1000000, none⟩)] ⟨3, 0, -1000000, none⟩
    (by norm_num [lookupEntry]) (fun b hb => by simp at hb)
    (by rw [show durationNumSeconds ((-5000 : ℤ) - (-1000000)) = 995 from by decide]
        norm_num [cfg60])
  have hr : refillTokens cfg60 (-5000) ⟨3, 0, -1000000, none⟩ = 3 := by
    rw [refillTokens, show durationNumSeconds ((-5000 : ℤ) - 0) = -5 from by decide]
    norm_num [cfg60, RateLimitConfig.refill_rate_per_second, RateLimitConfig.max_tokens]
  refine ⟨e', h1, h2, ?_⟩
  rw [h3, hr]
  norm_num

/-- C6: `cleanup_cache now` retains an entry iff its `blocked_until` is set
and still in the future, or `now - last_refill < 2 * block_duration`; hence
an entry with an active future block is never swept regardless of idle
duration, and an entry idle at least `2 * block_duration` with no active
block is removed. -/
theorem cleanup_cache_retains_iff (c : RateLimitConfig) (now : ℤ) (cache : Cache)
    (p : String × RateLimitEntry) :
    p ∈ cleanup_cache c now cache ↔
      p ∈ cache ∧
        ((∃ b, p.2.blocked_until = some b ∧ now < b) ∨
          now - p.2.last_refill < 2 * c.block_duration_ms) := by
  simp only [cleanup_cache, List.mem_filter]
  apply and_congr_right
  intro _
  cases hb : p.2.blocked_until with
  | none => simp [hb]
  | some b =>
    by_cases hnb : now < b
    · simp [hb, hnb]
    · simp [hb, hnb]

/-- Witness for `cleanup_cache_retains_iff`: at `now = 5` with
`block_duration = 900000 ms`, a long-idle entry with an active block
(expiring at 10) is retained, and an idle unblocked entry
(`last_refill = -9000000`) is removed. -/
theorem cleanup_cache_retains_iff_witness :
    ("k", (⟨0, -9000000, 0, some 10⟩ : RateLimitEntry)) ∈
      cleanup_cache c1cfg 5 [("k", ⟨0, -9000000, 0, some 10⟩), ("j", ⟨0, -9000000, 0, none⟩)] ∧
    ("j", (⟨0, -9000000, 0, none⟩ : RateLimitEntry)) ∉
      cleanup_cache c1cfg 5 [("k", ⟨0, -9000000, 0, some 10⟩), ("j", ⟨0, -9000000, 0, none⟩)] := by
  constructor
  · exact (cleanup_cache_retains_iff c1cfg 5 _ _).mpr
      ⟨by simp, Or.inl ⟨10, rfl, by norm_num⟩⟩
  · intro hmem
    rcases ((cleanup_cache_retains_iff c1cfg 5 _ _).mp hmem).2 with ⟨b, hb, _⟩ | hidle
    · simp at hb
    · rw [show (2 : ℤ) * c1cfg.block_duration_ms = 1800000 from by norm_num [c1cfg]] at hidle
      norm_num at hidle

/-- C8: `refund_tokens key amount` sets the existing entry's balance to
`min(max_tokens, tokens + amount)` and touches nothing else (in particular
`blocked_until` is neither cleared nor modified); on an unknown key the
cache is unchanged. -/
theorem refund_tokens_spec (c : RateLimitConfig) (key : String) (amount : ℚ) (cache : Cache) :
    (∀ e, lookupEntry cache key = some e →
      refund_tokens c key amount cache =
        updateEntry cache key { e with tokens := min (e.tokens + amount) c.max_tokens } ∧
      lookupEntry (refund_tokens c key amount cache) key =
        some { e with tokens := min (e.tokens + amount) c.max_tokens }) ∧
    (lookupEntry cache key = none → refund_tokens c key amount cache = cache) := by
  constructor
  · intro e hlook
    constructor
    · unfold refund_tokens
      rw [hlook]
    · unfold refund_tokens
      rw [hlook, lookupEntry_updateEntry, hlook]
      rfl
  · intro hlook
    unfold refund_tokens
    rw [hlook]

/-- Witness for `refund_tokens_spec`: the spec's own example — 5 of 10 tokens
remaining, refund 20, balance becomes exactly 10 (not 15); the entry's block
stamp (`some 7`) survives. -/
theorem refund_tokens_spec_witness :
    lookupEntry (refund_tokens c1cfg "k" 20 [("k", ⟨5, 0, 0, some 7⟩)]) "k" =
      some ⟨10, 0, 0, some 7⟩ := by
  have h := ((refund_tokens_spec c1cfg "k" 20 [("k", ⟨5, 0, 0, some 7⟩)]).1
    ⟨5, 0, 0, some 7⟩ (by norm_num [lookupEntry])).2
  rw [h]
  norm_num [c1cfg, RateLimitConfig.max_tokens, min_def]

lemma tdiv_1000_lt (d g : ℤ) (hg : 0 < g) (hd : d < g * 1000) : Int.tdiv d 1000 < g := by
  rcases le_or_lt 0 d with h0 | h0
  · rw [Int.tdiv_eq_ediv h0 (by norm_num)]
    rw [Int.ediv_lt_iff_lt_mul (by norm_num)]
    linarith
  · have hneg : Int.tdiv d 1000 ≤ 0 := by
      have h1 : Int.tdiv (-d) 1000 ≥ 0 := Int.tdiv_nonneg (by linarith) (by norm_num)
      have hrw : Int.tdiv (-d) 1000 = -(Int.tdiv d 1000) := Int.neg_tdiv d 1000
      linarith [hrw ▸ h1]
    linarith

/-- C9: while `now - created_at < grace_period` (with `grace_period > 0`) and
no active block stands, `check` returns `(true, false, max_tokens)` and
mutates neither `tokens` nor `last_refill` (the stored entry is unchanged);
on a key with no entry yet, the only mutation is the creation of the fresh
full entry. -/
theorem check_rate_limit_grace_period
    (c : RateLimitConfig) (now : ℤ) (key : String) (cache : Cache) :
    (∀ e, lookupEntry cache key = some e →
      (∀ b, e.blocked_until = some b → ¬ now < b) →
      0 < c.grace_period_seconds →
      now - e.created_at < (c.grace_period_seconds : ℤ) * 1000 →
      (check_rate_limit c now key cache).1 = (true, false, c.max_tokens) ∧
      lookupEntry (check_rate_limit c now key cache).2 key = some e) ∧
    (lookupEntry cache key = none → 0 < c.grace_period_seconds →
      check_rate_limit c now key cache =
        ((true, false, c.max_tokens),
          cache ++ [(key, RateLimitEntry.new c.max_tokens now)])) := by
  constructor
  · intro e hlook hnb hg hage
    have hga : durationNumSeconds (now - e.created_at) < (c.grace_period_seconds : ℤ) :=
      tdiv_1000_lt _ _ (by exact_mod_cast hg) hage
    rw [check_rate_limit_grace c now key cache e hlook hnb hga]
    exact ⟨rfl, by rw [lookupEntry_updateEntry, hlook]; rfl⟩
  · intro hlook hg
    exact check_rate_limit_fresh_grace c now key cache hlook (by exact_mod_cast hg)

/-- Witness for `check_rate_limit_grace_period`: a 5-second grace period,
an entry created at time 0 checked at `now = 4999 ms`: allowed at full
`max_tokens`, entry untouched. -/
theorem check_rate_limit_grace_period_witness :
    (check_rate_limit cfgGrace 4999 "k" [("k", ⟨7, 0, 0, none⟩)]).1 =
      (true, false, cfgGrace.max_tokens) ∧
    lookupEntry (check_rate_limit cfgGrace 4999 "k" [("k", ⟨7, 0, 0, none⟩)]).2 "k" =
      some ⟨7, 0, 0, none⟩ :=
  (check_rate_limit_grace_period cfgGrace 4999 "k" [("k", ⟨7, 0, 0, none⟩)]).1
    ⟨7, 0, 0, none⟩ (by norm_num [lookupEntry]) (fun b hb => by simp at hb)
    (by norm_num [cfgGrace]) (by norm_num [cfgGrace])

lemma find?_first_of_prefix {α : Type} (f : α → Bool) (l₁ l₂ : List α) (a : α)
    (ha : f a = true) (hl : ∀ q ∈ l₁, f q = false) :
    (l₁ ++ a :: l₂).find? f = some a := by
  induction l₁ with
  | nil => simpa using List.find?_cons_of_pos l₂ ha
  | cons q rest ih =>
    rw [List.cons_append,
      List.find?_cons_of_neg _ (by simp [hl q (List.mem_cons_self q rest)])]
    exact ih (fun r hr => hl r (List.mem_cons_of_mem q hr))

/-- C7: `RequestScreener::check` returns `MaliciousPath` of the first path
pattern (in list order) whose matcher accepts `path`; only when no path
pattern matches does it test the lowercased user agent against the
user-agent substrings, returning `MaliciousUserAgent` of the first
(case-insensitive) substring hit; when neither matches it returns `none` —
so path patterns always take precedence over user-agent patterns. -/
theorem screener_check_spec (s : RequestScreener) (path user_agent : List Char) :
    (∀ l₁ pr l₂, s.path_patterns = l₁ ++ pr :: l₂ → pr.2 path = true →
      (∀ q ∈ l₁, q.2 path = false) →
      s.check path user_agent = some (.MaliciousPath pr.1)) ∧
    ((∀ pr ∈ s.path_patterns, pr.2 path = false) →
      ∀ l₁ p l₂, s.user_agent_patterns = l₁ ++ p :: l₂ →
        p <:+: user_agent.map Char.toLower →
        (∀ q ∈ l₁, ¬ q <:+: user_agent.map Char.toLower) →
        s.check path user_agent = some (.MaliciousUserAgent p)) ∧
    ((∀ pr ∈ s.path_patterns, pr.2 path = false) →
      (∀ p ∈ s.user_agent_patterns, ¬ p <:+: user_agent.map Char.toLower) →
      s.check path user_agent = none) := by
  refine ⟨?_, ?_, ?_⟩
  · intro l₁ pr l₂ hsplit hmatch hnone
    unfold RequestScreener.check
    rw [hsplit, find?_first_of_prefix _ l₁ l₂ pr hmatch hnone]
  · intro hnopath l₁ p l₂ hsplit hinf hnone
    unfold RequestScreener.check
    rw [List.find?_eq_none.mpr (fun x hx => by simp [hnopath x hx])]
    dsimp only
    rw [hsplit, find?_first_of_prefix _ l₁ l₂ p (by simp [hinf])
      (fun q hq => by simp [hnone q hq])]
  · intro hnopath hnoua
    unfold RequestScreener.check
    rw [List.find?_eq_none.mpr (fun x hx => by simp [hnopath x hx])]
    dsimp only
    rw [List.find?_eq_none.mpr (fun x hx => by simp [hnoua x hx])]

/-- Witness for `screener_check_spec`: a screener with one path pattern
(matcher: contains `x`) and one user-agent pattern `z`; the path `ax`
matches the first path pattern even though the user agent `Z` would also
match, so the path verdict wins. -/
theorem screener_check_spec_witness :
    RequestScreener.check ⟨[(['x'], fun p => p.contains 'x')], [['z']]⟩ ['a', 'x'] ['Z'] =
      some (.MaliciousPath ['x']) :=
  (screener_check_spec ⟨[(['x'], fun p => p.contains 'x')], [['z']]⟩ ['a', 'x'] ['Z']).1
    [] (['x'], fun p => p.contains 'x') [] rfl (by decide) (by simp)

lemma compilePathPatterns_error {ε M : Type} (compile : List Char → Except ε M)
    (l₁ l₂ : List (List Char)) (p : List Char) (err : ε)
    (hok : ∀ q ∈ l₁, ∃ m, compile q = .ok m) (herr : compile p = .error err) :
    compilePathPatterns compile (l₁ ++ p :: l₂) = .error err := by
  induction l₁ with
  | nil => simp [compilePathPatterns, herr]
  | cons q rest ih =>
    obtain ⟨m, hm⟩ := hok q (List.mem_cons_self q rest)
    rw [List.cons_append]
    simp only [compilePathPatterns]
    rw [hm, ih (fun r hr => hok r (List.mem_cons_of_mem q hr))]

lemma compilePathPatterns_ok {ε M : Type} (compile : List Char → Except ε M)
    (l : List (List Char)) (hok : ∀ p ∈ l, ∃ m, compile p = .ok m) :
    ∃ ms, compilePathPatterns compile l = .ok ms ∧ ms.map Prod.fst = l := by
  induction l with
  | nil => exact ⟨[], rfl, rfl⟩
  | cons p rest ih =>
    obtain ⟨m, hm⟩ := hok p (List.mem_cons_self p rest)
    obtain ⟨ms, hms, hmap⟩ := ih (fun r hr => hok r (List.mem_cons_of_mem p hr))
    refine ⟨(p, m) :: ms, ?_, by simp [hmap]⟩
    simp only [compilePathPatterns]
    rw [hm, hms]

/-- C10: `RequestScreener::new` fails with the error of the first path
pattern that does not compile — producing no screener value at all — and
succeeds whenever every pattern compiles, yielding a screener that carries
exactly the configured path patterns (in order) and the lowercased
user-agent patterns.  Construction is atomic: the result is either a single
error or a fully built screener. -/
theorem screener_new_atomic {ε : Type} (compile : List Char → Except ε (List Char → Bool))
    (config : ScreeningConfig) :
    (∀ l₁ p l₂ err, config.path_patterns = l₁ ++ p :: l₂ →
      (∀ q ∈ l₁, ∃ m, compile q = .ok m) →
      compile p = .error err →
      RequestScreener.new compile config = .error err) ∧
    ((∀ p ∈ config.path_patterns, ∃ m, compile p = .ok m) →
      ∃ s : RequestScreener, RequestScreener.new compile config = .ok s ∧
        s.path_patterns.map Prod.fst = config.path_patterns ∧
        s.user_agent_patterns =
          config.user_agent_patterns.map (fun p => p.map Char.toLower)) := by
  constructor
  · intro l₁ p l₂ err hsplit hok herr
    unfold RequestScreener.new
    rw [hsplit, compilePathPatterns_error compile l₁ l₂ p err hok herr]
  · intro hok
    obtain ⟨ms, hms, hmap⟩ := compilePathPatterns_ok compile config.path_patterns hok
    refine ⟨⟨ms, config.user_agent_patterns.map (fun p => p.map Char.toLower)⟩, ?_, hmap, rfl⟩
    unfold RequestScreener.new
    rw [hms]

/-- Witness for `screener_new_atomic`: a compiler that rejects the pattern
`(` (returning the offending pattern as the error); constructing from
`["a", "("]` fails with exactly that pattern, producing no screener. -/
theorem screener_new_atomic_witness :
    RequestScreener.new
      (fun p => if p = ['('] then Except.error p else Except.ok (fun _ => false))
      ⟨[['a'], ['(']], []⟩ = Except.error ['('] :=
  (screener_new_atomic
      (fun p => if p = ['('] then Except.error p else Except.ok (fun _ => false))
      ⟨[['a'], ['(']], []⟩).1
    [['a']] ['('] [] ['('] rfl
    (by
      intro q hq
      rcases List.mem_singleton.mp hq with rfl
      exact ⟨fun _ => false, if_neg (by decide)⟩)
    (if_pos rfl)
